import Mathlib

/-!
Verification of the facettes server (src/server.js, the session-authenticated
variant) against its natural-language specification.

The embedding is shallow: JSON documents are modelled by the inductive type
`Json` (numbers as `Int`, which covers every value this server stores and
compares); JavaScript objects are association lists of fields in insertion
order; the file system is a `FileState` holding the parsed document and its
modification time (JSON.parse composed with JSON.stringify is the identity on
JSON trees, so a file is represented by the document it holds); module-level
mutable state is threaded explicitly.  Each route handler becomes a pure
function from its inputs and the relevant state to a response and the new
state.
-/

/-- A JSON value.  Object fields are kept in insertion order, matching
JavaScript object semantics. -/
inductive Json where
  | null
  | bool (b : Bool)
  | num (n : Int)
  | str (s : String)
  | arr (xs : List Json)
  | obj (fields : List (String × Json))

/-- A JavaScript object: fields in insertion order. -/
abbrev Obj := List (String × Json)

/-- Property access `o[k]`: the value of the first field named `k` (real JS
objects have unique keys), or `none` for `undefined`. -/
def getField : Obj → String → Option Json
  | [], _ => none
  | p :: o, k => if p.1 == k then some p.2 else getField o k

/-- JavaScript property assignment `o[k] = v`: overwrite the existing field in
place, otherwise append a new field at the end. -/
def objSet (o : Obj) (k : String) (v : Json) : Obj :=
  if o.any (fun p => p.1 == k) then
    o.map (fun p => if p.1 == k then (k, v) else p)
  else
    o ++ [(k, v)]

/-- The object literal `{...a, ...b}`: start from the fields of `a` and assign
each field of `b` in order. -/
def objSpread (a b : Obj) : Obj :=
  b.foldl (fun acc p => objSet acc p.1 p.2) a

/-- The value of the last field named `k` in a field list — the value that
wins when the list is spread into an object. -/
def lastField (b : Obj) (k : String) : Option Json :=
  b.foldl (fun acc p => if p.1 == k then some p.2 else acc) none

/-- JavaScript truthiness of a JSON value. -/
def jsTruthy : Json → Bool
  | .null => false
  | .bool b => b
  | .num n => n != 0
  | .str s => !(s == "")
  | .arr _ => true
  | .obj _ => true

/-- Truthiness of a nullable slot (`none` models the initial `null`). -/
def optTruthy : Option Json → Bool
  | none => false
  | some v => jsTruthy v

/-- The JSON body `{error: msg}` produced by the error responses. -/
def errJson (msg : String) : Json :=
  Json.obj [("error", Json.str msg)]

-- ==== Object-spread lemmas ====

theorem getField_append (a b : Obj) (k : String) :
    getField (a ++ b) k =
      match getField a k with
      | some v => some v
      | none => getField b k := by
  induction a with
  | nil => rfl
  | cons p a ih =>
    cases hb : p.1 == k with
    | true => simp only [List.cons_append, getField, hb, if_true]
    | false =>
      simp only [List.cons_append, getField, hb, Bool.false_eq_true, if_false]
      exact ih

theorem getField_map_set (o : Obj) (k : String) (v : Json) :
    getField (o.map (fun p => if p.1 == k then (k, v) else p)) k =
      if o.any (fun p => p.1 == k) then some v else none := by
  induction o with
  | nil => rfl
  | cons p o ih =>
    cases hb : p.1 == k with
    | true =>
      simp only [List.map_cons, hb, if_true, List.any_cons, Bool.true_or]
      simp [getField]
    | false =>
      simp only [List.map_cons, hb, Bool.false_eq_true, if_false, List.any_cons,
        Bool.false_or]
      simp only [getField, hb, Bool.false_eq_true, if_false]
      exact ih

theorem getField_map_set_other (o : Obj) (k' : String) (v : Json) (k : String)
    (h : k' ≠ k) :
    getField (o.map (fun p => if p.1 == k' then (k', v) else p)) k = getField o k := by
  have hk'k : (k' == k) = false := by simp [h]
  induction o with
  | nil => rfl
  | cons p o ih =>
    cases hp : p.1 == k' with
    | true =>
      have hp1 : p.1 = k' := by simpa using hp
      have hpk : (p.1 == k) = false := by simp [hp1, h]
      simp only [List.map_cons, hp, if_true]
      simp only [getField, hk'k, hpk, Bool.false_eq_true, if_false]
      exact ih
    | false =>
      simp only [List.map_cons, hp, Bool.false_eq_true, if_false]
      simp only [getField]
      cases hk : p.1 == k with
      | true => simp only [hk, if_true]
      | false =>
        simp only [hk, Bool.false_eq_true, if_false]
        exact ih

theorem getField_eq_none_of_not_any (o : Obj) (k : String)
    (h : o.any (fun p => p.1 == k) = false) : getField o k = none := by
  induction o with
  | nil => rfl
  | cons p o ih =>
    rw [List.any_cons] at h
    have h2 : (p.1 == k) = false ∧ (o.any fun p => p.1 == k) = false := by
      simpa using h
    simp only [getField, h2.1, Bool.false_eq_true, if_false]
    exact ih h2.2

theorem getField_objSet_self (o : Obj) (k : String) (v : Json) :
    getField (objSet o k v) k = some v := by
  unfold objSet
  cases ha : o.any (fun p => p.1 == k) with
  | true => rw [if_pos rfl, getField_map_set, if_pos ha]
  | false =>
    rw [if_neg (by simp), getField_append, getField_eq_none_of_not_any o k ha]
    simp [getField]

theorem getField_objSet_other (o : Obj) (k' : String) (v : Json) (k : String)
    (h : k' ≠ k) :
    getField (objSet o k' v) k = getField o k := by
  unfold objSet
  cases ha : o.any (fun p => p.1 == k') with
  | true => rw [if_pos rfl, getField_map_set_other o k' v k h]
  | false =>
    rw [if_neg (by simp), getField_append]
    cases hg : getField o k with
    | some v' => rfl
    | none => simp [getField, h]

theorem foldl_lastField (b : Obj) (k : String) (init : Option Json) :
    List.foldl (fun acc p => if p.1 == k then some p.2 else acc) init b =
      match lastField b k with
      | some v => some v
      | none => init := by
  induction b generalizing init with
  | nil => rfl
  | cons q b ih =>
    rw [List.foldl_cons, ih]
    have hl : lastField (q :: b) k =
        List.foldl (fun acc r => if r.1 == k then some r.2 else acc)
          (if q.1 == k then some q.2 else none) b := by
      unfold lastField
      rw [List.foldl_cons]
    rw [hl, ih]
    cases lastField b k with
    | some v => rfl
    | none =>
      cases hq : q.1 == k with
      | true => simp only [hq, if_true]
      | false => simp only [hq, Bool.false_eq_true, if_false]

/-- Master lemma: a field of `{...a, ...b}` is the last value given for it in
`b`, and falls back to its value in `a` when `b` does not mention it. -/
theorem getField_objSpread (b a : Obj) (k : String) :
    getField (objSpread a b) k =
      match lastField b k with
      | some v => some v
      | none => getField a k := by
  induction b generalizing a with
  | nil => rfl
  | cons p b ih =>
    have step : objSpread a (p :: b) = objSpread (objSet a p.1 p.2) b := rfl
    rw [step, ih]
    have hl : lastField (p :: b) k =
        List.foldl (fun acc r => if r.1 == k then some r.2 else acc)
          (if p.1 == k then some p.2 else none) b := by
      unfold lastField
      rw [List.foldl_cons]
    rw [hl, foldl_lastField]
    cases lastField b k with
    | some v => rfl
    | none =>
      cases hb : p.1 == k with
      | true =>
        have hpk : p.1 = k := by simpa using hb
        simp only [hb, if_true]
        subst hpk
        exact getField_objSet_self a p.1 p.2
      | false =>
        simp only [hb, Bool.false_eq_true, if_false]
        exact getField_objSet_other a p.1 p.2 k (by simpa using hb)

-- ==== parseInt (JavaScript semantics, radix auto-detection) ====

/-- JavaScript whitespace stripped by parseInt. -/
def isJsWhitespace (c : Char) : Bool :=
  c == ' ' || c == '\t' || c == '\n' || c == '\r' || c == '\x0b' || c == '\x0c'

/-- Whether a character is a hexadecimal digit. -/
def isHexDigitJs (c : Char) : Bool :=
  c.isDigit || (97 ≤ c.toNat && c.toNat ≤ 102) || (65 ≤ c.toNat && c.toNat ≤ 70)

/-- Numeric value of a hexadecimal digit. -/
def hexVal (c : Char) : Nat :=
  if c.isDigit then c.toNat - 48
  else if 97 ≤ c.toNat then c.toNat - 87
  else c.toNat - 55

/-- Value of a list of decimal digits. -/
def decDigitsVal (ds : List Char) : Nat :=
  ds.foldl (fun a c => a * 10 + (c.toNat - 48)) 0

/-- Value of a list of hexadecimal digits. -/
def hexDigitsVal (ds : List Char) : Nat :=
  ds.foldl (fun a c => a * 16 + hexVal c) 0

/-- The longest decimal-digit prefix, interpreted with the sign, or `none`
when there is no digit (parseInt returns NaN). -/
def parseDecRun (sign : Int) (cs : List Char) : Option Int :=
  match cs.takeWhile Char.isDigit with
  | [] => none
  | ds => some (sign * Int.ofNat (decDigitsVal ds))

/-- JavaScript `parseInt(s)` with the default radix detection: strip leading
whitespace, read an optional sign, detect a `0x`/`0X` prefix for hexadecimal,
then take the longest digit prefix; `none` models NaN. -/
def parseIntJs (s : String) : Option Int :=
  let cs := s.data.dropWhile isJsWhitespace
  let signRest : Int × List Char :=
    match cs with
    | '-' :: r => (-1, r)
    | '+' :: r => (1, r)
    | r => (1, r)
  let sign := signRest.1
  let rest := signRest.2
  match rest with
  | '0' :: x :: r =>
    if x == 'x' || x == 'X' then
      match r.takeWhile isHexDigitJs with
      | [] => none
      | ds => some (sign * Int.ofNat (hexDigitsVal ds))
    else
      parseDecRun sign rest
  | _ => parseDecRun sign rest

-- ==== SPEAKERS API ====

/-- The strict comparison `sp.id === n` used by find/findIndex/filter on
the speaker routes: true only when the stored id is the number `n`. -/
def idEq (sp : Obj) (n : Int) : Bool :=
  match getField sp "id" with
  | some (.num m) => m == n
  | _ => false

/-- The comparison `sp.id === parseInt(seg)`: always false when parseInt
returned NaN (nothing is strictly equal to NaN). -/
def idMatches (sp : Obj) (pid : Option Int) : Bool :=
  match pid with
  | some n => idEq sp n
  | none => false

/-- Numeric reading of the stored id, as used by `Math.max(...speakers.map(s
=> s.id))`; stored speaker ids are numbers on every state the server itself
produces, so the default only pads the ill-typed case. -/
def idNum (sp : Obj) : Int :=
  match getField sp "id" with
  | some (.num n) => n
  | _ => 0

/-- Behavior of `Math.max(...)` over a nonempty list (the empty case is guarded by the
`speakers.length ?` test in the source). -/
def maxIds : List Int → Int
  | [] => 0
  | x :: xs => xs.foldl max x

/-- The id chosen by `POST /api/speakers`:
`speakers.length ? Math.max(...speakers.map(s => s.id)) + 1 : 1`. -/
def assignId (speakers : List Obj) : Int :=
  if speakers.isEmpty then 1 else maxIds (speakers.map idNum) + 1

/-- The record built by `POST /api/speakers`:
`{ id: assigned, ...req.body }` — note the body is spread after the id
field. -/
def createdSpeaker (speakers : List Obj) (body : Obj) : Obj :=
  objSpread [("id", Json.num (assignId speakers))] body

/-- Handler for `POST /api/speakers`: push the new record and return it with
status 201. -/
def createSpeakerHandler (speakers : List Obj) (body : Obj) :
    (Nat × Json) × List Obj :=
  let newSpeaker := createdSpeaker speakers body
  ((201, Json.obj newSpeaker), speakers ++ [newSpeaker])

/-- Handler for `GET /api/speakers/:id`: find by `sp.id === parseInt(id)`,
404 when absent. -/
def getSpeakerHandler (speakers : List Obj) (idSeg : String) : Nat × Json :=
  match speakers.find? (fun sp => idMatches sp (parseIntJs idSeg)) with
  | none => (404, errJson "Speaker not found")
  | some s => (200, Json.obj s)

/-- The record stored by `PUT /api/speakers/:id`:
`{ ...speakers[index], ...req.body, id: speakers[index].id }` — the id
property is written last, after both spreads. -/
def updatedSpeaker (existing body : Obj) : Obj :=
  objSet (objSpread existing body) "id" ((getField existing "id").getD Json.null)

/-- Handler for `PUT /api/speakers/:id`: findIndex by strict id equality,
404 when absent, otherwise replace the record in place and return it. -/
def putSpeakerHandler (speakers : List Obj) (idSeg : String) (body : Obj) :
    (Nat × Json) × List Obj :=
  match speakers.findIdx? (fun sp => idMatches sp (parseIntJs idSeg)) with
  | none => ((404, errJson "Speaker not found"), speakers)
  | some index =>
    let existing := (speakers[index]?).getD []
    let upd := updatedSpeaker existing body
    ((200, Json.obj upd), speakers.set index upd)

/-- Handler for `DELETE /api/speakers/:id`: filter out the matching records;
404 when the filtered list has the same length (size-before/size-after
comparison). -/
def deleteSpeakerHandler (speakers : List Obj) (idSeg : String) :
    (Nat × Json) × List Obj :=
  let filtered := speakers.filter (fun sp => !idMatches sp (parseIntJs idSeg))
  if filtered.length == speakers.length then
    ((404, errJson "Not found"), speakers)
  else
    ((200, Json.obj [("message", Json.str "Deleted")]), filtered)

-- ==== Cache System ====

/-- Constant `CACHE_TTL = 1000 * 60`. -/
def CACHE_TTL : Int := 1000 * 60

/-- A JSON file on disk: the parsed document it holds and its modification
time `mtimeMs`. -/
structure FileState where
  content : Json
  mtime : Int

/-- The outcome of `readCached`: the returned value, the final contents of
the two ref cells, and whether `fs.readFile` ran. -/
structure ReadResult where
  value : Json
  cacheValue : Option Json
  timestamp : Int
  didReadFile : Bool

/-- Function `readCached(file, cacheRef, timestampRef)`: stat the file; when the cache
slot is falsy, the file is newer than the recorded refresh time, or more than
`CACHE_TTL` has elapsed, re-read and re-parse the file and stamp the refs
with `Date.now()`; otherwise return the cached value untouched. -/
def readCached (file : FileState) (now : Int) (cacheValue : Option Json)
    (timestamp : Int) : ReadResult :=
  if !optTruthy cacheValue || file.mtime > timestamp || now - timestamp > CACHE_TTL then
    ⟨file.content, some file.content, now, true⟩
  else
    ⟨cacheValue.getD Json.null, cacheValue, timestamp, false⟩

/-- The module-level mutable cache variables of server.js. -/
structure ServerCacheState where
  speakersCache : Option Json
  speakersTimestamp : Int
  contentCache : Option Json
  contentTimestamp : Int

/-- The state at module load: `speakersCache = null`, `speakersTimestamp = 0`,
`contentCache = null`, `contentTimestamp = 0`. -/
def initCacheState : ServerCacheState :=
  ⟨none, 0, none, 0⟩

/-- Function `readSpeakersCached()`: calls `readCached` on fresh wrapper objects
`{ value: speakersCache }` and `{ value: speakersTimestamp }`; the wrappers
receive the refreshed value and timestamp and are then discarded, so the
module-level variables are left exactly as they were.  Returns the value and
whether the file was re-read. -/
def readSpeakersCached (file : FileState) (now : Int) (s : ServerCacheState) :
    Json × ServerCacheState × Bool :=
  let r := readCached file now s.speakersCache s.speakersTimestamp
  (r.value, s, r.didReadFile)

/-- Function `writeSpeakersCached(data)`: assign the module-level variables, then
write the file (so the on-disk mtime `wtime` is at or after `now`). -/
def writeSpeakersCached (data : Json) (now wtime : Int) (s : ServerCacheState) :
    ServerCacheState × FileState :=
  ({ s with speakersCache := some data, speakersTimestamp := now },
   ⟨data, wtime⟩)

/-- Function `readContentCached()`: same fresh-wrapper construction as
`readSpeakersCached`, over the content variables. -/
def readContentCached (file : FileState) (now : Int) (s : ServerCacheState) :
    Json × ServerCacheState × Bool :=
  let r := readCached file now s.contentCache s.contentTimestamp
  (r.value, s, r.didReadFile)

/-- Function `writeContentCached(data)`: assign the module-level content variables,
then write the file. -/
def writeContentCached (data : Json) (now wtime : Int) (s : ServerCacheState) :
    ServerCacheState × FileState :=
  ({ s with contentCache := some data, contentTimestamp := now },
   ⟨data, wtime⟩)

/-- Run a sequence of `GET /api/speakers`-style cached reads, each against
the file state and clock instant given for it, threading the module state;
collects the didReadFile flag of every read. -/
def runSpeakerReads : List (FileState × Int) → ServerCacheState →
    List Bool × ServerCacheState
  | [], s => ([], s)
  | (f, t) :: rest, s =>
    let r := readSpeakersCached f t s
    let rec' := runSpeakerReads rest r.2.1
    (r.2.2 :: rec'.1, rec'.2)

-- ==== CONTENT API ====

/-- Handler for `GET /api/content`: respond with the cached read. -/
def getContentHandler (file : FileState) (now : Int) (s : ServerCacheState) :
    Nat × Json :=
  (200, (readContentCached file now s).1)

/-- Handler for `PUT /api/content`: `writeContentCached(req.body)` then a
success message. -/
def putContentHandler (body : Json) (now wtime : Int) (s : ServerCacheState) :
    (Nat × Json) × ServerCacheState × FileState :=
  ((200, Json.obj [("message", Json.str "Content updated successfully")]),
   writeContentCached body now wtime s)

-- ==== AUTHENTICATION & USER MANAGEMENT ====

/-- The test `u.username === username` used by find/findIndex/filter on the
user routes: true only when the stored username is the string `name`. -/
def unameEq (u : Obj) (name : String) : Bool :=
  match getField u "username" with
  | some (.str s) => s == name
  | _ => false

/-- Response of `POST /api/auth/login` together with the session assignment
it performs (`some username` when `req.session.isAuthenticated` is set).
`bcryptCompare password hash` stands for `bcrypt.compare`; a missing or
non-string stored hash makes `bcrypt.compare` reject, which the catch block
turns into a 500. -/
def loginHandler (bcryptCompare : String → String → Bool) (users : List Obj)
    (username password : String) : (Nat × Json) × Option String :=
  if username == "" || password == "" then
    ((400, errJson "Username and password required"), none)
  else
    match users.find? (fun u => unameEq u username) with
    | none => ((401, errJson "Invalid credentials"), none)
    | some user =>
      match getField user "passwordHash" with
      | some (.str hash) =>
        if bcryptCompare password hash then
          ((200, Json.obj [("success", Json.bool true),
            ("message", Json.str "Login successful"),
            ("username", Json.str username)]), some username)
        else
          ((401, errJson "Invalid credentials"), none)
      | _ => ((500, errJson "Login failed"), none)

/-- One of the four properties picked by the `GET /api/users` sanitizer; a
missing property is `undefined` and is dropped by JSON serialization. -/
def pickField (u : Obj) (k : String) : Obj :=
  match getField u k with
  | some v => [(k, v)]
  | none => []

/-- The object `{username, createdAt, passwordChangedAt, lastLogin}` built
for each user by `GET /api/users` — the password hash is not copied. -/
def sanitizeUser (u : Obj) : Obj :=
  pickField u "username" ++ pickField u "createdAt" ++
    pickField u "passwordChangedAt" ++ pickField u "lastLogin"

/-- Handler for `GET /api/users`: map the sanitizer over the stored users. -/
def listUsersHandler (users : List Obj) : Nat × List Obj :=
  (200, users.map sanitizeUser)

/-- Handler for `DELETE /api/users/:username`: refuse self-deletion first,
then refuse when at most one user is stored, then filter; 404 when the
filter removed nothing. -/
def deleteUserHandler (sessionUsername : String) (users : List Obj)
    (username : String) : (Nat × Json) × List Obj :=
  if username == sessionUsername then
    ((400, errJson "Cannot delete your own account"), users)
  else if users.length ≤ 1 then
    ((400, errJson "Cannot delete the last user"), users)
  else
    let filteredUsers := users.filter (fun u => !unameEq u username)
    if filteredUsers.length == users.length then
      ((404, errJson "User not found"), users)
    else
      ((200, Json.obj [("success", Json.bool true),
        ("message", Json.str "User deleted successfully")]), filteredUsers)

-- ==== Helper lemmas about Math.max folds ====

theorem le_foldl_max_init (ys : List Int) (a : Int) : a ≤ ys.foldl max a := by
  induction ys generalizing a with
  | nil => exact le_refl a
  | cons z zs ih => exact le_trans (le_max_left a z) (ih (max a z))

theorem le_foldl_max_mem (ys : List Int) (a x : Int) (h : x ∈ ys) :
    x ≤ ys.foldl max a := by
  induction ys generalizing a with
  | nil => cases h
  | cons z zs ih =>
    rcases List.mem_cons.mp h with hz | hz
    · subst hz
      exact le_trans (le_max_right a x) (le_foldl_max_init zs (max a x))
    · exact ih (max a z) hz

theorem le_maxIds (xs : List Int) (x : Int) (h : x ∈ xs) : x ≤ maxIds xs := by
  cases xs with
  | nil => cases h
  | cons y ys =>
    rcases List.mem_cons.mp h with hz | hz
    · subst hz
      exact le_foldl_max_init ys x
    · exact le_foldl_max_mem ys y x hz

-- ==== Claim theorems ====

/-- C1: the claim states that a caller-supplied `id` in a create-speaker body
is always overwritten by the assignment rule (max existing id + 1, or 1 on an
empty collection).  The code evaluates that rule but spreads the request body
after the `id` field, so the caller value wins: posting `{id: 42}` to an
empty collection stores and returns a record with id 42, where the claim
demands id 1. -/
theorem create_speaker_caller_id_wins :
    assignId [] = 1 ∧
    getField (createdSpeaker [] [("id", Json.num 42)]) "id" = some (Json.num 42) ∧
    some (Json.num 42) ≠ some (Json.num 1) ∧
    createSpeakerHandler [] [("id", Json.num 42)] =
      ((201, Json.obj [("id", Json.num 42)]), [[("id", Json.num 42)]]) :=
  ⟨rfl, rfl, by simp, rfl⟩

/-- C2 (counterexample): the run create, create, delete 2, create.  The first
two creates assign ids 1 and 2; deleting the record with the maximum id
leaves the collection that the second create saw, so the next create assigns
id 2 again — the id is reused and the sequence of assigned ids 1, 2, 2 is not
strictly increasing, refuting the claim as stated. -/
theorem speaker_id_reused_after_delete_max :
    (createSpeakerHandler [] []).2 = [[("id", Json.num 1)]] ∧
    idNum (createdSpeaker [] []) = 1 ∧
    (createSpeakerHandler [[("id", Json.num 1)]] []).2 =
      [[("id", Json.num 1)], [("id", Json.num 2)]] ∧
    idNum (createdSpeaker [[("id", Json.num 1)]] []) = 2 ∧
    (deleteSpeakerHandler [[("id", Json.num 1)], [("id", Json.num 2)]] "2").2 =
      [[("id", Json.num 1)]] ∧
    idNum (createdSpeaker [[("id", Json.num 1)]] []) = 2 :=
  ⟨rfl, rfl, rfl, rfl, rfl, rfl⟩

/-- C2 (amended): each create assigns id 1 on an empty collection and
max(existing ids) + 1 otherwise, and the assigned id is strictly greater than
every id stored at that moment (so it is fresh with respect to the current
collection); when the body carries no id field the created record really
holds the assigned id.  Freshness across deletions fails: after the record
with the maximum id is deleted the same id is assigned again, as the
counterexample shows. -/
theorem assignId_rule_and_local_freshness (speakers : List Obj) (body : Obj) :
    (speakers.isEmpty = true → assignId speakers = 1) ∧
    (speakers.isEmpty = false →
      assignId speakers = maxIds (speakers.map idNum) + 1) ∧
    (∀ sp ∈ speakers, idNum sp < assignId speakers) ∧
    (lastField body "id" = none →
      getField (createdSpeaker speakers body) "id" =
        some (Json.num (assignId speakers))) := by
  refine ⟨fun h => by simp [assignId, h], fun h => by simp [assignId, h], ?_, ?_⟩
  · intro sp hsp
    have hne : speakers.isEmpty = false := by
      cases speakers with
      | nil => cases hsp
      | cons a l => rfl
    have hle : idNum sp ≤ maxIds (speakers.map idNum) :=
      le_maxIds _ _ (List.mem_map_of_mem idNum hsp)
    have : assignId speakers = maxIds (speakers.map idNum) + 1 := by
      simp [assignId, hne]
    omega
  · intro hnone
    unfold createdSpeaker
    rw [getField_objSpread, hnone]
    rfl

/-- Witness for the amended C2 theorem at a concrete store and body. -/
theorem assignId_rule_and_local_freshness_witness :
    idNum [("id", Json.num 3)] < assignId [[("id", Json.num 3)]] ∧
    getField (createdSpeaker [[("id", Json.num 3)]] [("name", Json.str "Ada")]) "id" =
      some (Json.num (assignId [[("id", Json.num 3)]])) :=
  ⟨(assignId_rule_and_local_freshness [[("id", Json.num 3)]]
      [("name", Json.str "Ada")]).2.2.1 [("id", Json.num 3)] (by simp),
   (assignId_rule_and_local_freshness [[("id", Json.num 3)]]
      [("name", Json.str "Ada")]).2.2.2 rfl⟩

/-- C3: a cached read reloads from the file and stamps the refresh time with
the current instant exactly when the cache slot is empty, the on-disk
modification time is newer than the recorded refresh time, or more than 60
seconds (CACHE_TTL milliseconds) have elapsed since it; otherwise it returns
the in-memory value unchanged, leaves the refs untouched and does not read
the file.  The second part is stated for truthy cached values, which covers
the speakers array and the content object. -/
theorem readCached_refresh_policy (file : FileState) (now : Int)
    (cache : Option Json) (ts : Int) :
    (cache = none ∨ file.mtime > ts ∨ now - ts > CACHE_TTL →
      readCached file now cache ts = ⟨file.content, some file.content, now, true⟩) ∧
    (∀ v, cache = some v → jsTruthy v = true → file.mtime ≤ ts →
      now - ts ≤ CACHE_TTL →
      readCached file now cache ts = ⟨v, some v, ts, false⟩) := by
  constructor
  · intro h
    rcases h with h | h | h
    · simp [readCached, h, optTruthy]
    · simp [readCached, h]
    · simp [readCached, h]
  · intro v hv htr hmt httl
    subst hv
    have h2 : ¬file.mtime > ts := not_lt.mpr hmt
    have h3 : ¬now - ts > CACHE_TTL := not_lt.mpr httl
    simp [readCached, optTruthy, htr, h2, h3]

/-- Witness for C3: an empty cache forces a reload; a fresh, truthy cache is
served without touching the file. -/
theorem readCached_refresh_policy_witness :
    readCached ⟨Json.arr [], 5⟩ 10 none 0 = ⟨Json.arr [], some (Json.arr []), 10, true⟩ ∧
    readCached ⟨Json.arr [], 5⟩ 10 (some (Json.obj [])) 7 =
      ⟨Json.obj [], some (Json.obj []), 7, false⟩ :=
  ⟨(readCached_refresh_policy ⟨Json.arr [], 5⟩ 10 none 0).1 (Or.inl rfl),
   (readCached_refresh_policy ⟨Json.arr [], 5⟩ 10 (some (Json.obj [])) 7).2
     (Json.obj []) rfl rfl (by decide) (by decide)⟩

/-- C4: replacing the content document and then reading it returns exactly
the submitted document, whatever the previous cache and file held: the write
installs the document both in the cache and in the file, so the following
read returns it from whichever source the staleness check selects — no merge,
nothing carried over. -/
theorem content_replace_then_get_roundtrip (doc : Json) (s : ServerCacheState)
    (now wtime now2 : Int) :
    getContentHandler (putContentHandler doc now wtime s).2.2 now2
      (putContentHandler doc now wtime s).2.1 = (200, doc) := by
  unfold getContentHandler readContentCached putContentHandler writeContentCached
    readCached
  by_cases h : (!optTruthy (some doc) ||
      decide (wtime > now) || decide (now2 - now > CACHE_TTL)) = true
  · simp [h]
  · simp [h]

/-- C9: the cached read helpers hand `readCached` fresh one-field wrapper
objects built from the module-level cache variables, so the refresh performed
inside `readCached` is written to the wrappers and discarded: a read never
changes the module state, only the write helpers do, and because the module
slots start as null, every read that happens before the first write reloads
(re-reads and re-parses the file), however many reads precede it. -/
theorem cached_reads_never_update_module_state (file : FileState) (now : Int)
    (s : ServerCacheState) :
    ((readSpeakersCached file now s).2.1 = s) ∧
    ((readContentCached file now s).2.1 = s) ∧
    (s.speakersCache = none → (readSpeakersCached file now s).2.2 = true) ∧
    (s.contentCache = none → (readContentCached file now s).2.2 = true) ∧
    (∀ data now' wtime,
      (writeSpeakersCached data now' wtime s).1.speakersCache = some data ∧
      (writeSpeakersCached data now' wtime s).1.speakersTimestamp = now') ∧
    (∀ data now' wtime,
      (writeContentCached data now' wtime s).1.contentCache = some data ∧
      (writeContentCached data now' wtime s).1.contentTimestamp = now') ∧
    (initCacheState.speakersCache = none ∧ initCacheState.contentCache = none) ∧
    (∀ reads : List (FileState × Int), s.speakersCache = none →
      ∀ b ∈ (runSpeakerReads reads s).1, b = true) := by
  refine ⟨rfl, rfl, ?_, ?_, fun _ _ _ => ⟨rfl, rfl⟩, fun _ _ _ => ⟨rfl, rfl⟩,
    ⟨rfl, rfl⟩, ?_⟩
  · intro h
    simp [readSpeakersCached, readCached, optTruthy, h]
  · intro h
    simp [readContentCached, readCached, optTruthy, h]
  · intro reads h b hb
    induction reads with
    | nil => cases hb
    | cons ft rest ih =>
      obtain ⟨f, t⟩ := ft
      have hstate : (readSpeakersCached f t s).2.1 = s := rfl
      have hflag : (readSpeakersCached f t s).2.2 = true := by
        simp [readSpeakersCached, readCached, optTruthy, h]
      simp only [runSpeakerReads, hstate, List.mem_cons] at hb
      rcases hb with hb | hb
      · rw [hb, hflag]
      · exact ih hb

/-- Witness for C9 at a concrete file, clock and the initial module state. -/
theorem cached_reads_never_update_module_state_witness :
    (readSpeakersCached ⟨Json.arr [], 5⟩ 10 initCacheState).2.1 = initCacheState ∧
    (readSpeakersCached ⟨Json.arr [], 5⟩ 10 initCacheState).2.2 = true ∧
    ∀ b ∈ (runSpeakerReads [(⟨Json.arr [], 5⟩, 10), (⟨Json.arr [], 6⟩, 11)]
      initCacheState).1, b = true :=
  ⟨(cached_reads_never_update_module_state ⟨Json.arr [], 5⟩ 10 initCacheState).1,
   (cached_reads_never_update_module_state ⟨Json.arr [], 5⟩ 10
     initCacheState).2.2.1 rfl,
   (cached_reads_never_update_module_state ⟨Json.arr [], 5⟩ 10
     initCacheState).2.2.2.2.2.2.2 [(⟨Json.arr [], 5⟩, 10), (⟨Json.arr [], 6⟩, 11)]
     rfl⟩

/-- C5: a login attempt naming an existing user with a password that fails
the hash comparison and a login attempt naming an unknown user produce the
same response: identical 401 status, identical `Invalid credentials` body,
and neither sets the session — the two cases cannot be told apart from the
response.  (`bcryptCompare` abstracts `bcrypt.compare`.) -/
theorem login_wrong_password_indistinguishable_from_unknown_user
    (bcryptCompare : String → String → Bool) (users : List Obj)
    (u1 p1 u2 p2 : String) (usr : Obj) (hash : String)
    (hu1 : ¬u1 = "") (hp1 : ¬p1 = "")
    (hfind : users.find? (fun u => unameEq u u1) = some usr)
    (hhash : getField usr "passwordHash" = some (Json.str hash))
    (hwrong : bcryptCompare p1 hash = false)
    (hu2 : ¬u2 = "") (hp2 : ¬p2 = "")
    (hnone : users.find? (fun u => unameEq u u2) = none) :
    loginHandler bcryptCompare users u1 p1 = loginHandler bcryptCompare users u2 p2 ∧
    loginHandler bcryptCompare users u1 p1 =
      ((401, errJson "Invalid credentials"), none) := by
  have h1 : loginHandler bcryptCompare users u1 p1 =
      ((401, errJson "Invalid credentials"), none) := by
    simp [loginHandler, hu1, hp1, hfind, hhash, hwrong]
  have h2 : loginHandler bcryptCompare users u2 p2 =
      ((401, errJson "Invalid credentials"), none) := by
    simp [loginHandler, hu2, hp2, hnone]
  exact ⟨h1.trans h2.symm, h1⟩

/-- Witness for C5: one stored user `admin`, a comparison that rejects, a
wrong-password attempt for `admin` and an attempt for the unknown `bob`. -/
theorem login_indistinguishable_witness :
    loginHandler (fun _ _ => false)
      [[("username", Json.str "admin"), ("passwordHash", Json.str "h")]]
      "admin" "x" =
    loginHandler (fun _ _ => false)
      [[("username", Json.str "admin"), ("passwordHash", Json.str "h")]]
      "bob" "y" ∧
    loginHandler (fun _ _ => false)
      [[("username", Json.str "admin"), ("passwordHash", Json.str "h")]]
      "admin" "x" = ((401, errJson "Invalid credentials"), none) :=
  login_wrong_password_indistinguishable_from_unknown_user
    (fun _ _ => false)
    [[("username", Json.str "admin"), ("passwordHash", Json.str "h")]]
    "admin" "x" "bob" "y"
    [("username", Json.str "admin"), ("passwordHash", Json.str "h")] "h"
    (by decide) (by decide) rfl rfl rfl (by decide) (by decide) rfl

/-- C6 (counterexample): with a single stored user `admin`, the session user
`admin` deleting the absent username `bob` gets status 400 (`Cannot delete
the last user`), where the claim requires 404 (`NotFoundError`): the target
is absent, differs from the session user, and its deletion would not remove
the last remaining user since it removes nothing. -/
theorem delete_absent_user_from_singleton_store :
    deleteUserHandler "admin"
      [[("username", Json.str "admin"), ("passwordHash", Json.str "h")]] "bob" =
      ((400, errJson "Cannot delete the last user"),
        [[("username", Json.str "admin"), ("passwordHash", Json.str "h")]]) ∧
    (400 : Nat) ≠ 404 :=
  ⟨rfl, by decide⟩

/-- C6 (amended): the checks run in source order — self-deletion is refused
with 400 first; otherwise a store holding at most one user yields 400 whether
or not the target exists; only then, with at least two users, an absent
target yields 404; otherwise exactly the records bearing the target username
are removed with a 200 response. -/
theorem deleteUser_check_order (sess : String) (users : List Obj)
    (target : String) :
    (target = sess →
      deleteUserHandler sess users target =
        ((400, errJson "Cannot delete your own account"), users)) ∧
    (¬target = sess → users.length ≤ 1 →
      deleteUserHandler sess users target =
        ((400, errJson "Cannot delete the last user"), users)) ∧
    (¬target = sess → 1 < users.length →
      (∀ u ∈ users, unameEq u target = false) →
      deleteUserHandler sess users target =
        ((404, errJson "User not found"), users)) ∧
    (¬target = sess → 1 < users.length →
      (∃ u ∈ users, unameEq u target = true) →
      deleteUserHandler sess users target =
        ((200, Json.obj [("success", Json.bool true),
          ("message", Json.str "User deleted successfully")]),
          users.filter (fun u => !unameEq u target))) := by
  refine ⟨?_, ?_, ?_, ?_⟩
  · intro h
    simp [deleteUserHandler, h]
  · intro hs hlen
    simp [deleteUserHandler, hs, hlen]
  · intro hs hlen habsent
    have hfe : users.filter (fun u => !unameEq u target) = users :=
      List.filter_eq_self.mpr (fun u hu => by simp [habsent u hu])
    simp [deleteUserHandler, hs, Nat.not_le.mpr hlen, hfe]
  · intro hs hlen hpresent
    obtain ⟨u, hu, hueq⟩ := hpresent
    have hlt : (users.filter (fun u => !unameEq u target)).length < users.length :=
      List.length_filter_lt_length_iff_exists.mpr ⟨u, hu, by simp [hueq]⟩
    have hne : ((users.filter (fun u => !unameEq u target)).length ==
        users.length) = false := by
      simp [Nat.ne_of_lt hlt]
    simp [deleteUserHandler, hs, Nat.not_le.mpr hlen, hne]

/-- Witness for the amended C6 theorem: with users `admin` and `bob`, the
session user `admin` deletes `bob`; exactly the `bob` record is removed. -/
theorem deleteUser_check_order_witness :
    deleteUserHandler "admin"
      [[("username", Json.str "admin")], [("username", Json.str "bob")]] "bob" =
      ((200, Json.obj [("success", Json.bool true),
        ("message", Json.str "User deleted successfully")]),
        [[("username", Json.str "admin")]]) := by
  have h := (deleteUser_check_order "admin"
    [[("username", Json.str "admin")], [("username", Json.str "bob")]]
    "bob").2.2.2 (by decide) (by decide)
    ⟨[("username", Json.str "bob")], by simp, rfl⟩
  exact h.trans (by rfl)

/-- C7: updating a speaker shallow-merges the patch body into the existing
record and then writes the id property last, so the stored id survives even
when the body carries a different id; fields the body does not mention keep
their values, fields it does mention take the body value; an id that matches
no record yields 404 and leaves the collection unchanged. -/
theorem speaker_update_merge_spec (speakers : List Obj) (idSeg : String)
    (body : Obj) :
    (speakers.findIdx? (fun sp => idMatches sp (parseIntJs idSeg)) = none →
      putSpeakerHandler speakers idSeg body =
        ((404, errJson "Speaker not found"), speakers)) ∧
    (∀ index existing idv,
      speakers.findIdx? (fun sp => idMatches sp (parseIntJs idSeg)) = some index →
      speakers[index]? = some existing →
      getField existing "id" = some idv →
      putSpeakerHandler speakers idSeg body =
        ((200, Json.obj (updatedSpeaker existing body)),
          speakers.set index (updatedSpeaker existing body)) ∧
      getField (updatedSpeaker existing body) "id" = some idv ∧
      (∀ k, lastField body k = none →
        getField (updatedSpeaker existing body) k = getField existing k) ∧
      (∀ k v, ¬k = "id" → lastField body k = some v →
        getField (updatedSpeaker existing body) k = some v)) := by
  constructor
  · intro h
    simp [putSpeakerHandler, h]
  · intro index existing idv hidx hget hid
    have hupd_id : getField (updatedSpeaker existing body) "id" = some idv := by
      unfold updatedSpeaker
      rw [hid]
      simpa using getField_objSet_self (objSpread existing body) "id"
        ((some idv).getD Json.null)
    refine ⟨?_, hupd_id, ?_, ?_⟩
    · simp [putSpeakerHandler, hidx, hget]
    · intro k hk
      by_cases hkid : k = "id"
      · subst hkid
        rw [hupd_id, hid]
      · have hne : ¬("id" = k) := fun hc => hkid hc.symm
        unfold updatedSpeaker
        rw [getField_objSet_other _ _ _ _ hne, getField_objSpread, hk]
    · intro k v hkid hlast
      have hne : ¬("id" = k) := fun hc => hkid hc.symm
      unfold updatedSpeaker
      rw [getField_objSet_other _ _ _ _ hne, getField_objSpread, hlast]

/-- Witness for C7: patching speaker 7 with a body that renames it and tries
to set id 99 — the body name wins, the id stays 7. -/
theorem speaker_update_merge_spec_witness :
    putSpeakerHandler [[("id", Json.num 7), ("name", Json.str "Ada")]] "7"
      [("name", Json.str "Bob"), ("id", Json.num 99)] =
      ((200, Json.obj (updatedSpeaker [("id", Json.num 7), ("name", Json.str "Ada")]
          [("name", Json.str "Bob"), ("id", Json.num 99)])),
        [[("id", Json.num 7), ("name", Json.str "Ada")]].set 0
          (updatedSpeaker [("id", Json.num 7), ("name", Json.str "Ada")]
            [("name", Json.str "Bob"), ("id", Json.num 99)])) ∧
    getField (updatedSpeaker [("id", Json.num 7), ("name", Json.str "Ada")]
      [("name", Json.str "Bob"), ("id", Json.num 99)]) "id" = some (Json.num 7) := by
  have h := (speaker_update_merge_spec [[("id", Json.num 7), ("name", Json.str "Ada")]]
    "7" [("name", Json.str "Bob"), ("id", Json.num 99)]).2 0
    [("id", Json.num 7), ("name", Json.str "Ada")] (Json.num 7) rfl rfl rfl
  exact ⟨h.1, h.2.1⟩

/-- Lemma: a single picked property contributes nothing under a different
key. -/
theorem getField_pickField_other (u : Obj) (k k' : String) (h : ¬k = k') :
    getField (pickField u k) k' = none := by
  unfold pickField
  cases getField u k with
  | none => rfl
  | some v => simp [getField, h]

/-- Lemma: the sanitized user object has no passwordHash field. -/
theorem sanitizeUser_no_passwordHash (u : Obj) :
    getField (sanitizeUser u) "passwordHash" = none := by
  have h1 := getField_pickField_other u "username" "passwordHash" (by decide)
  have h2 := getField_pickField_other u "createdAt" "passwordHash" (by decide)
  have h3 := getField_pickField_other u "passwordChangedAt" "passwordHash" (by decide)
  have h4 := getField_pickField_other u "lastLogin" "passwordHash" (by decide)
  simp [sanitizeUser, getField_append, h1, h2, h3, h4]

/-- C8: listing users returns one sanitized object per stored user, in
order — every stored user appears — and no element of the response carries a
passwordHash field. -/
theorem list_users_strips_passwordHash (users : List Obj) :
    (listUsersHandler users).1 = 200 ∧
    (listUsersHandler users).2.length = users.length ∧
    (∀ u ∈ users, sanitizeUser u ∈ (listUsersHandler users).2) ∧
    (∀ r ∈ (listUsersHandler users).2, getField r "passwordHash" = none) := by
  refine ⟨rfl, by simp [listUsersHandler], ?_, ?_⟩
  · intro u hu
    exact List.mem_map_of_mem sanitizeUser hu
  · intro r hr
    simp only [listUsersHandler, List.mem_map] at hr
    obtain ⟨u, _, rfl⟩ := hr
    exact sanitizeUser_no_passwordHash u

/-- Witness for C8 at a one-user store whose record holds a password hash. -/
theorem list_users_strips_passwordHash_witness :
    sanitizeUser [("username", Json.str "admin"), ("passwordHash", Json.str "h")] ∈
      (listUsersHandler
        [[("username", Json.str "admin"), ("passwordHash", Json.str "h")]]).2 ∧
    getField (sanitizeUser
      [("username", Json.str "admin"), ("passwordHash", Json.str "h")])
      "passwordHash" = none := by
  have h := list_users_strips_passwordHash
    [[("username", Json.str "admin"), ("passwordHash", Json.str "h")]]
  have hmem := h.2.2.1 [("username", Json.str "admin"), ("passwordHash", Json.str "h")]
    (by simp)
  exact ⟨hmem, h.2.2.2 _ hmem⟩

/-- C10: the speaker :id routes convert the path segment with parseInt.  A
segment with no parseable integer prefix yields NaN, which is strictly equal
to no stored id, so all three routes answer 404 and leave the collection
unchanged; a segment with trailing garbage such as `7abc` parses to 7 and the
routes behave exactly as they do for `7`. -/
theorem speaker_routes_parseInt_behavior :
    (∀ (speakers : List Obj) (idSeg : String) (body : Obj),
      parseIntJs idSeg = none →
      getSpeakerHandler speakers idSeg = (404, errJson "Speaker not found") ∧
      putSpeakerHandler speakers idSeg body =
        ((404, errJson "Speaker not found"), speakers) ∧
      deleteSpeakerHandler speakers idSeg = ((404, errJson "Not found"), speakers)) ∧
    parseIntJs "7abc" = some 7 ∧
    (∀ (speakers : List Obj) (body : Obj),
      getSpeakerHandler speakers "7abc" = getSpeakerHandler speakers "7" ∧
      putSpeakerHandler speakers "7abc" body = putSpeakerHandler speakers "7" body ∧
      deleteSpeakerHandler speakers "7abc" = deleteSpeakerHandler speakers "7") := by
  refine ⟨?_, by decide, ?_⟩
  · intro speakers idSeg body h
    have hfind : speakers.find? (fun sp => idMatches sp (parseIntJs idSeg)) = none :=
      List.find?_eq_none.mpr (fun sp _ => by simp [idMatches, h])
    have hidx : speakers.findIdx? (fun sp => idMatches sp (parseIntJs idSeg)) = none :=
      List.findIdx?_eq_none_iff.mpr (fun sp _ => by simp [idMatches, h])
    have hfil : speakers.filter (fun sp => !idMatches sp (parseIntJs idSeg)) =
        speakers :=
      List.filter_eq_self.mpr (fun sp _ => by simp [idMatches, h])
    refine ⟨?_, ?_, ?_⟩
    · simp [getSpeakerHandler, hfind]
    · simp [putSpeakerHandler, hidx]
    · simp [deleteSpeakerHandler, hfil]
  · intro speakers body
    have hp : parseIntJs "7abc" = parseIntJs "7" := by decide
    refine ⟨?_, ?_, ?_⟩
    · simp only [getSpeakerHandler, hp]
    · simp only [putSpeakerHandler, hp]
    · simp only [deleteSpeakerHandler, hp]

/-- Witness for C10: the segment `abc` parses to NaN and all routes answer
404 on a nonempty collection. -/
theorem speaker_routes_parseInt_behavior_witness :
    parseIntJs "abc" = none ∧
    getSpeakerHandler [[("id", Json.num 7)]] "abc" = (404, errJson "Speaker not found") ∧
    deleteSpeakerHandler [[("id", Json.num 7)]] "abc" =
      ((404, errJson "Not found"), [[("id", Json.num 7)]]) :=
  ⟨by decide,
   (speaker_routes_parseInt_behavior.1 [[("id", Json.num 7)]] "abc" [] (by decide)).1,
   (speaker_routes_parseInt_behavior.1 [[("id", Json.num 7)]] "abc" [] (by decide)).2.2⟩
